import Mathlib

/-!
Verification of the PCAP writer in pcaputil/write.go.

The source is a small serializer: a `Writer` wraps an output byte sink and
exposes `WriteFileHeader` (the 24-byte global PCAP header, v2.4,
nanosecond-resolution, little-endian) and `WritePacket` (a 16-byte record
header followed by the raw payload), with two validation checks performed
before any byte is written.

Shallow embedding choices:
- bytes are `Nat` values below 256, byte strings are `List Nat`;
- Go's `binary.LittleEndian.PutUint32`/`PutUint16` become `putUint32LE`/
  `putUint16LE`, extracting the low bytes of a `Nat`;
- Go `int` (64-bit) and `time.Time.UnixNano()` values become `Int`; Go's
  truncating `/` and `%` on integers become `Int.tdiv` / `Int.tmod`; the Go
  conversion `uint32(x)` becomes `uint32ofInt` (reduction modulo 2^32,
  which is exactly the two's-complement low-32-bits narrowing);
- the `io.Writer` sink becomes a `SinkModel`: a state type together with a
  write operation that appends bytes and may fail with an (opaque, string)
  error, mirroring the single method the source uses;
- Go's `error` results become `Option PcapError`, where `PcapError`
  distinguishes the two validation errors (each carrying the data the
  source formats into its message) from propagated sink errors.
-/

/-- Go constant: the nanosecond-resolution PCAP magic number, 0xA1B23C4D. -/
def magicNanoseconds : Nat := 0xA1B23C4D

/-- Go constant: PCAP major version, 2. -/
def versionMajor : Nat := 2

/-- Go constant: PCAP minor version, 4. -/
def versionMinor : Nat := 4

/-- Go constant: nanoseconds per second, used to split a timestamp. -/
def nanosPerSecond : Int := 1000000000

/-- Embedding of binary.LittleEndian.PutUint16: the two low-order bytes of
a value, least significant first. -/
def putUint16LE (v : Nat) : List Nat :=
  [v % 256, v / 256 % 256]

/-- Embedding of binary.LittleEndian.PutUint32: the four low-order bytes of
a value, least significant first. -/
def putUint32LE (v : Nat) : List Nat :=
  [v % 256, v / 256 % 256, v / 65536 % 256, v / 16777216 % 256]

/-- Embedding of the Go conversion uint32(x) applied to a signed integer:
the low 32 bits, i.e. reduction modulo 2^32 (Euclidean, hence nonnegative). -/
def uint32ofInt (x : Int) : Nat :=
  (x % 4294967296).toNat

/-- Embedding of gopacket.CaptureInfo as used by write.go: the timestamp is
kept as its UnixNano value (nanoseconds since the epoch, a signed 64-bit
integer in Go, modelled as Int); CaptureLength and Length are Go ints. -/
structure CaptureInfo where
  timestamp : Int
  captureLength : Int
  length : Int
deriving DecidableEq, Repr

/-- Model of the io.Writer sink: a state type with one write operation that
returns the new sink state and, on failure, an opaque error. The PCAP
writer only ever calls this single operation. -/
structure SinkModel (σ : Type) where
  write : σ → List Nat → σ × Option String

/-- The concrete always-succeeding sink: its state is the list of all bytes
written so far, and a write appends. -/
def listSink : SinkModel (List Nat) :=
  ⟨fun s bs => (s ++ bs, none)⟩

/-- Errors returned by the writer operations: the two validation errors of
WritePacket (carrying the values the Go code formats into the message), a
sink error wrapped by the packet-header write, and a sink error returned
verbatim. -/
inductive PcapError where
  | captureLengthMismatch (captureLength : Int) (dataLength : Nat)
  | captureExceedsLength (ci : CaptureInfo)
  | headerWriteFailed (err : String)
  | sinkErr (err : String)
deriving DecidableEq, Repr

/-- Whether an error is one of the two VALIDATION errors. -/
def PcapError.isValidation : PcapError → Bool
  | .captureLengthMismatch _ _ => true
  | .captureExceedsLength _ => true
  | .headerWriteFailed _ => false
  | .sinkErr _ => false

/-- Whether an optional error result holds a VALIDATION error. -/
def isValidationErr : Option PcapError → Bool
  | some e => e.isValidation
  | none => false

/-- The 24 bytes built by WriteFileHeader: magic, version major, version
minor, four zero bytes (timezone), four zero bytes (sigfigs), snaplen,
linktype, every multi-byte field little-endian. -/
def fileHeaderBytes (snaplen linktype : Nat) : List Nat :=
  putUint32LE magicNanoseconds ++ putUint16LE versionMajor ++ putUint16LE versionMinor
    ++ [0, 0, 0, 0] ++ [0, 0, 0, 0] ++ putUint32LE snaplen ++ putUint32LE linktype

/-- Embedding of Writer.WriteFileHeader: build the 24-byte header and hand
it to the sink in one write, returning the sink's error verbatim. -/
def WriteFileHeader {σ : Type} (m : SinkModel σ) (s : σ) (snaplen linktype : Nat) :
    σ × Option PcapError :=
  let r := m.write s (fileHeaderBytes snaplen linktype)
  (r.1, r.2.map PcapError.sinkErr)

/-- The 16 bytes built by Writer.writePacketHeader: the timestamp is split
with Go's truncating division and remainder by 1e9, and all four fields are
narrowed to uint32 before little-endian encoding. -/
def packetHeaderBytes (ci : CaptureInfo) : List Nat :=
  putUint32LE (uint32ofInt (Int.tdiv ci.timestamp nanosPerSecond))
    ++ putUint32LE (uint32ofInt (Int.tmod ci.timestamp nanosPerSecond))
    ++ putUint32LE (uint32ofInt ci.captureLength)
    ++ putUint32LE (uint32ofInt ci.length)

/-- Embedding of Writer.writePacketHeader: write the 16 header bytes to the
sink, returning the sink's error verbatim. -/
def writePacketHeader {σ : Type} (m : SinkModel σ) (s : σ) (ci : CaptureInfo) :
    σ × Option String :=
  m.write s (packetHeaderBytes ci)

/-- Embedding of Writer.WritePacket: reject a capture length that differs
from the payload length, then a capture length above the original length,
each before any byte reaches the sink; otherwise write the 16-byte record
header (wrapping a sink failure) and then the payload (propagating a sink
failure verbatim). -/
def WritePacket {σ : Type} (m : SinkModel σ) (s : σ) (ci : CaptureInfo) (data : List Nat) :
    σ × Option PcapError :=
  if ci.captureLength ≠ (data.length : Int) then
    (s, some (PcapError.captureLengthMismatch ci.captureLength data.length))
  else if ci.captureLength > ci.length then
    (s, some (PcapError.captureExceedsLength ci))
  else
    let r := writePacketHeader m s ci
    match r.2 with
    | some e => (r.1, some (PcapError.headerWriteFailed e))
    | none =>
      let r2 := m.write r.1 data
      (r2.1, r2.2.map PcapError.sinkErr)

/-- Sequential driver used only to state the multi-record claim: write the
given (CaptureInfo, payload) records in order with WritePacket, stopping at
the first error. -/
def writePackets {σ : Type} (m : SinkModel σ) (s : σ) :
    List (CaptureInfo × List Nat) → σ × Option PcapError
  | [] => (s, none)
  | p :: ps =>
    let r := WritePacket m s p.1 p.2
    match r.2 with
    | some e => (r.1, some e)
    | none => writePackets m r.1 ps

/-- Little-endian decoder for a 4-byte field, reading the first four bytes
of a list (missing bytes read as 0). -/
def readUint32LE (bs : List Nat) : Nat :=
  bs.getD 0 0 + 256 * bs.getD 1 0 + 65536 * bs.getD 2 0 + 16777216 * bs.getD 3 0

/-- Little-endian decoder for a 2-byte field. -/
def readUint16LE (bs : List Nat) : Nat :=
  bs.getD 0 0 + 256 * bs.getD 1 0

/-- The fields of a decoded PCAP global header, in file order. -/
structure DecodedFileHeader where
  magic : Nat
  verMajor : Nat
  verMinor : Nat
  thiszone : Nat
  sigfigs : Nat
  snaplen : Nat
  linktype : Nat
deriving DecidableEq, Repr

/-- Decoder for the 24-byte global header, following the spec's description
of a correct little-endian PCAP reader (round-trip property). This is not
part of the source; it exists only to state the round-trip claim against
the writer. -/
def readFileHeader (bs : List Nat) : Option DecodedFileHeader :=
  if bs.length = 24 then
    some ⟨readUint32LE (bs.take 4),
          readUint16LE ((bs.drop 4).take 2),
          readUint16LE ((bs.drop 6).take 2),
          readUint32LE ((bs.drop 8).take 4),
          readUint32LE ((bs.drop 12).take 4),
          readUint32LE ((bs.drop 16).take 4),
          readUint32LE ((bs.drop 20).take 4)⟩
  else none

/-! ## Helper lemmas -/

theorem uint32ofInt_lt (x : Int) : uint32ofInt x < 4294967296 := by
  unfold uint32ofInt
  have h1 : 0 ≤ x % 4294967296 := Int.emod_nonneg x (by norm_num)
  have h2 : x % 4294967296 < 4294967296 := Int.emod_lt_of_pos x (by norm_num)
  omega

theorem readUint32LE_putUint32LE (v : Nat) (h : v < 4294967296) :
    readUint32LE (putUint32LE v) = v := by
  simp only [readUint32LE, putUint32LE, List.getD_cons_zero, List.getD_cons_succ]
  omega

theorem packetHeaderBytes_length (ci : CaptureInfo) :
    (packetHeaderBytes ci).length = 16 := by
  simp [packetHeaderBytes, putUint32LE]

theorem fileHeaderBytes_length (sl lt : Nat) :
    (fileHeaderBytes sl lt).length = 24 := by
  simp [fileHeaderBytes, putUint32LE, putUint16LE]

theorem packetHeader_fields (ci : CaptureInfo) :
    readUint32LE ((packetHeaderBytes ci).take 4)
      = uint32ofInt (Int.tdiv ci.timestamp nanosPerSecond)
    ∧ readUint32LE (((packetHeaderBytes ci).drop 4).take 4)
      = uint32ofInt (Int.tmod ci.timestamp nanosPerSecond)
    ∧ readUint32LE (((packetHeaderBytes ci).drop 8).take 4)
      = uint32ofInt ci.captureLength
    ∧ readUint32LE (((packetHeaderBytes ci).drop 12).take 4)
      = uint32ofInt ci.length := by
  have h1 := uint32ofInt_lt (Int.tdiv ci.timestamp nanosPerSecond)
  have h2 := uint32ofInt_lt (Int.tmod ci.timestamp nanosPerSecond)
  have h3 := uint32ofInt_lt ci.captureLength
  have h4 := uint32ofInt_lt ci.length
  refine ⟨?_, ?_, ?_, ?_⟩ <;>
    simp only [packetHeaderBytes, putUint32LE, List.cons_append, List.nil_append,
      List.take_succ_cons, List.take_zero, List.drop_succ_cons, List.drop_zero,
      readUint32LE, List.getD_cons_zero, List.getD_cons_succ] <;>
    omega

theorem writePacket_ok (s : List Nat) (ci : CaptureInfo) (data : List Nat)
    (h1 : ci.captureLength = (data.length : Int)) (h2 : ci.captureLength ≤ ci.length) :
    WritePacket listSink s ci data = (s ++ packetHeaderBytes ci ++ data, none) := by
  have h2a : ¬ ((data.length : Int) > ci.length) := not_lt.mpr (h1 ▸ h2)
  simp [WritePacket, h1, h2a, writePacketHeader, listSink, List.append_assoc]

theorem writePacket_success_shape (s : List Nat) (ci : CaptureInfo) (data : List Nat)
    (h : (WritePacket listSink s ci data).2 = none) :
    ci.captureLength = (data.length : Int) ∧ ci.captureLength ≤ ci.length
    ∧ (WritePacket listSink s ci data).1 = s ++ packetHeaderBytes ci ++ data := by
  by_cases h1 : ci.captureLength = (data.length : Int)
  · by_cases h2 : ci.captureLength ≤ ci.length
    · exact ⟨h1, h2, by rw [writePacket_ok s ci data h1 h2]⟩
    · exfalso
      have h2a : (data.length : Int) > ci.length := h1 ▸ lt_of_not_le h2
      simp [WritePacket, h1, h2a] at h
  · exfalso
    simp [WritePacket, h1] at h

theorem writePackets_ok (pkts : List (CaptureInfo × List Nat)) (s : List Nat)
    (h : ∀ p ∈ pkts, p.1.captureLength = (p.2.length : Int)
      ∧ p.1.captureLength ≤ p.1.length) :
    writePackets listSink s pkts
      = (s ++ (pkts.map fun p => packetHeaderBytes p.1 ++ p.2).flatten, none) := by
  induction pkts generalizing s with
  | nil => simp [writePackets]
  | cons p ps ih =>
    have hp := h p (List.mem_cons_self p ps)
    rw [writePackets, writePacket_ok s p.1 p.2 hp.1 hp.2]
    simp only [List.map_cons, List.flatten_cons]
    rw [ih (s ++ packetHeaderBytes p.1 ++ p.2) fun q hq => h q (List.mem_cons_of_mem p hq)]
    simp [List.append_assoc]

theorem records_flatten_length (pkts : List (CaptureInfo × List Nat)) :
    ((pkts.map fun p => packetHeaderBytes p.1 ++ p.2).flatten).length
      = (pkts.map fun p => 16 + p.2.length).sum := by
  induction pkts with
  | nil => simp
  | cons p ps ih =>
    simp only [List.map_cons, List.flatten_cons, List.length_append,
      packetHeaderBytes_length, List.sum_cons, ih]

/-! ## Claim theorems -/

/-- C1: for every 32-bit snaplen and linktype, WriteFileHeader emits exactly
24 bytes: the magic 0xA1B23C4D little-endian, version major 2 on two bytes,
version minor 4 on two bytes, four zero bytes of timezone, four zero bytes
of sigfigs, snaplen little-endian on four bytes, linktype little-endian on
four bytes; the witness instantiates the particular case
write-file-header(65536, 1). -/
theorem writeFileHeader_layout (s : List Nat) (sl lt : Nat)
    (hsl : sl < 4294967296) (hlt : lt < 4294967296) :
    WriteFileHeader listSink s sl lt =
      (s ++ [0x4D, 0x3C, 0xB2, 0xA1, 2, 0, 4, 0, 0, 0, 0, 0, 0, 0, 0, 0,
             sl % 256, sl / 256 % 256, sl / 65536 % 256, sl / 16777216,
             lt % 256, lt / 256 % 256, lt / 65536 % 256, lt / 16777216], none)
    ∧ (fileHeaderBytes sl lt).length = 24 := by
  refine ⟨?_, fileHeaderBytes_length sl lt⟩
  simp only [WriteFileHeader, listSink, fileHeaderBytes, putUint32LE, putUint16LE,
    magicNanoseconds, versionMajor, versionMinor, List.cons_append, List.nil_append,
    Option.map_none, Prod.mk.injEq, List.append_cancel_left_eq, List.cons.injEq,
    and_true, true_and]
  norm_num
  omega

/-- C1 witness: write-file-header(65536, 1) emits the byte sequence
4D 3C B2 A1 02 00 04 00 00 00 00 00 00 00 00 00 00 00 01 00 01 00 00 00. -/
theorem writeFileHeader_layout_witness :
    WriteFileHeader listSink [] 65536 1 =
      ([0x4D, 0x3C, 0xB2, 0xA1, 2, 0, 4, 0, 0, 0, 0, 0, 0, 0, 0, 0,
        0, 0, 1, 0, 1, 0, 0, 0], none)
    ∧ (fileHeaderBytes 65536 1).length = 24 := by
  have h := writeFileHeader_layout [] 65536 1 (by decide) (by decide)
  simpa using h

/-- C7: WriteFileHeader never raises a VALIDATION error: for every sink,
sink state, snaplen and linktype, its resulting sink state and error are
exactly those of the single underlying sink write of the 24 header bytes
(the sink's error, when any, being propagated inside the sinkErr wrapper),
and its error outcome is never a validation error. -/
theorem writeFileHeader_no_validation {σ : Type} (m : SinkModel σ) (s : σ)
    (sl lt : Nat) :
    (WriteFileHeader m s sl lt).1 = (m.write s (fileHeaderBytes sl lt)).1
    ∧ (WriteFileHeader m s sl lt).2
        = ((m.write s (fileHeaderBytes sl lt)).2).map PcapError.sinkErr
    ∧ isValidationErr (WriteFileHeader m s sl lt).2 = false := by
  refine ⟨rfl, rfl, ?_⟩
  unfold WriteFileHeader isValidationErr
  cases h : (m.write s (fileHeaderBytes sl lt)).2 <;>
    simp [h, PcapError.isValidation]

/-- C3: whenever the declared capture length differs from the payload's
actual length, WritePacket fails with the VALIDATION error carrying both
lengths and leaves the sink state untouched, for every sink. -/
theorem writePacket_length_mismatch {σ : Type} (m : SinkModel σ) (s : σ)
    (ci : CaptureInfo) (data : List Nat)
    (h : ci.captureLength ≠ (data.length : Int)) :
    WritePacket m s ci data
      = (s, some (PcapError.captureLengthMismatch ci.captureLength data.length))
    ∧ isValidationErr (WritePacket m s ci data).2 = true := by
  refine ⟨by simp [WritePacket, h], ?_⟩
  simp [WritePacket, h, isValidationErr, PcapError.isValidation]

/-- C3 witness: the spec's Scenario C, a declared capture length of 8 with a
10-byte payload, is rejected with the mismatch error and writes nothing. -/
theorem writePacket_length_mismatch_witness :
    WritePacket listSink [] ⟨0, 8, 10⟩ [1, 2, 3, 4, 5, 6, 7, 8, 9, 10]
      = ([], some (PcapError.captureLengthMismatch 8 10))
    ∧ isValidationErr
        (WritePacket listSink [] ⟨0, 8, 10⟩ [1, 2, 3, 4, 5, 6, 7, 8, 9, 10]).2 = true :=
  writePacket_length_mismatch listSink [] ⟨0, 8, 10⟩
    [1, 2, 3, 4, 5, 6, 7, 8, 9, 10] (by decide)

/-- C4: whenever the declared capture length exceeds the declared original
length, WritePacket fails with a VALIDATION error and leaves the sink state
untouched, for every sink (when the capture length also differs from the
payload length, the validation error raised is the mismatch one, which is
still a validation error). -/
theorem writePacket_capture_exceeds {σ : Type} (m : SinkModel σ) (s : σ)
    (ci : CaptureInfo) (data : List Nat)
    (h : ci.captureLength > ci.length) :
    (WritePacket m s ci data).1 = s
    ∧ isValidationErr (WritePacket m s ci data).2 = true := by
  by_cases h1 : ci.captureLength = (data.length : Int)
  · have h2 : (data.length : Int) > ci.length := h1 ▸ h
    constructor <;>
      simp [WritePacket, h1, h2, isValidationErr, PcapError.isValidation]
  · constructor <;>
      simp [WritePacket, h1, isValidationErr, PcapError.isValidation]

/-- C4 witness: the spec's Scenario D, capture length 20 against original
length 10 (with a 20-byte payload so the first check passes), is rejected
with a VALIDATION error and writes nothing. -/
theorem writePacket_capture_exceeds_witness :
    (WritePacket listSink [] ⟨0, 20, 10⟩
      [0, 0, 0, 0, 0, 0, 0, 0, 0, 0, 0, 0, 0, 0, 0, 0, 0, 0, 0, 0]).1 = []
    ∧ isValidationErr
        (WritePacket listSink [] ⟨0, 20, 10⟩
          [0, 0, 0, 0, 0, 0, 0, 0, 0, 0, 0, 0, 0, 0, 0, 0, 0, 0, 0, 0]).2 = true :=
  writePacket_capture_exceeds listSink [] ⟨0, 20, 10⟩
    [0, 0, 0, 0, 0, 0, 0, 0, 0, 0, 0, 0, 0, 0, 0, 0, 0, 0, 0, 0] (by decide)

/-- C9: WritePacket checks the capture-length-vs-payload-length condition
before the capture-length-vs-original-length condition: on an input
violating both, the returned error is the mismatch error carrying the two
lengths, for every sink. -/
theorem writePacket_check_order {σ : Type} (m : SinkModel σ) (s : σ)
    (ci : CaptureInfo) (data : List Nat)
    (h1 : ci.captureLength ≠ (data.length : Int))
    (h2 : ci.captureLength > ci.length) :
    WritePacket m s ci data
      = (s, some (PcapError.captureLengthMismatch ci.captureLength data.length)) := by
  simp [WritePacket, h1]

/-- C9 witness: capture length 20, original length 10 and an empty payload
violate both checks; the error reported is the length mismatch. -/
theorem writePacket_check_order_witness :
    WritePacket listSink [] ⟨0, 20, 10⟩ []
      = ([], some (PcapError.captureLengthMismatch 20 0)) :=
  writePacket_check_order listSink [] ⟨0, 20, 10⟩ [] (by decide) (by decide)

/-- C2 counterexample: the packet with timestamp 4294967296000000000 ns
(2^32 seconds, year 2106, a valid 64-bit value), capture length 0, original
length 0 and empty payload passes both preconditions and is written, yet
the encoded seconds field is 0, not the timestamp's 4294967296 whole
seconds: the claim that the header contains the timestamp seconds fails. -/
theorem writePacket_layout_counterexample :
    (WritePacket listSink [] ⟨4294967296000000000, 0, 0⟩ []).2 = none
    ∧ Int.tdiv 4294967296000000000 1000000000 = 4294967296
    ∧ readUint32LE (((WritePacket listSink [] ⟨4294967296000000000, 0, 0⟩ []).1).take 4)
        = 0
    ∧ (0 : Nat) ≠ 4294967296 := by decide

/-- C2 (amended): for every packet write whose preconditions hold (capture
length equals payload length and capture length at most original length),
WritePacket appends to the sink a 16-byte record header holding, in order
and little-endian, the low 32 bits of the truncated quotient and remainder
of the timestamp by 1e9 and the low 32 bits of the capture and original
lengths, followed immediately by the payload bytes unchanged; in
particular, write-packet(ts = 1000 s + 500 ns, 4, 4, [DE AD BE EF]) emits
the header seconds=1000, nanos=500, lengths 4 and 4 followed by those four
bytes. -/
theorem writePacket_record_layout (s : List Nat) (ci : CaptureInfo) (data : List Nat)
    (h1 : ci.captureLength = (data.length : Int))
    (h2 : ci.captureLength ≤ ci.length) :
    WritePacket listSink s ci data = (s ++ packetHeaderBytes ci ++ data, none)
    ∧ (packetHeaderBytes ci).length = 16
    ∧ readUint32LE ((packetHeaderBytes ci).take 4)
        = ((Int.tdiv ci.timestamp 1000000000) % 4294967296).toNat
    ∧ readUint32LE (((packetHeaderBytes ci).drop 4).take 4)
        = ((Int.tmod ci.timestamp 1000000000) % 4294967296).toNat
    ∧ readUint32LE (((packetHeaderBytes ci).drop 8).take 4)
        = (ci.captureLength % 4294967296).toNat
    ∧ readUint32LE (((packetHeaderBytes ci).drop 12).take 4)
        = (ci.length % 4294967296).toNat
    ∧ WritePacket listSink [] ⟨1000000000500, 4, 4⟩ [222, 173, 190, 239]
        = ([232, 3, 0, 0, 244, 1, 0, 0, 4, 0, 0, 0, 4, 0, 0, 0,
            222, 173, 190, 239], none) := by
  obtain ⟨f1, f2, f3, f4⟩ := packetHeader_fields ci
  exact ⟨writePacket_ok s ci data h1 h2, packetHeaderBytes_length ci,
    f1, f2, f3, f4, by decide⟩

/-- C2 witness: the amended layout theorem applied to the spec's Scenario B
input, write-packet(ts = 1000 s + 500 ns, 4, 4, [DE AD BE EF]). -/
theorem writePacket_record_layout_witness :
    WritePacket listSink [] ⟨1000000000500, 4, 4⟩ [222, 173, 190, 239]
      = ([] ++ packetHeaderBytes ⟨1000000000500, 4, 4⟩ ++ [222, 173, 190, 239], none)
    ∧ (packetHeaderBytes ⟨1000000000500, 4, 4⟩).length = 16
    ∧ readUint32LE ((packetHeaderBytes ⟨1000000000500, 4, 4⟩).take 4)
        = ((Int.tdiv 1000000000500 1000000000) % 4294967296).toNat
    ∧ readUint32LE (((packetHeaderBytes ⟨1000000000500, 4, 4⟩).drop 4).take 4)
        = ((Int.tmod 1000000000500 1000000000) % 4294967296).toNat
    ∧ readUint32LE (((packetHeaderBytes ⟨1000000000500, 4, 4⟩).drop 8).take 4)
        = ((4 : Int) % 4294967296).toNat
    ∧ readUint32LE (((packetHeaderBytes ⟨1000000000500, 4, 4⟩).drop 12).take 4)
        = ((4 : Int) % 4294967296).toNat
    ∧ WritePacket listSink [] ⟨1000000000500, 4, 4⟩ [222, 173, 190, 239]
        = ([232, 3, 0, 0, 244, 1, 0, 0, 4, 0, 0, 0, 4, 0, 0, 0,
            222, 173, 190, 239], none) :=
  writePacket_record_layout [] ⟨1000000000500, 4, 4⟩ [222, 173, 190, 239]
    (by decide) (by decide)

/-- C5 counterexample: for the non-negative timestamp
T = 4294967296000000000 ns, T div 1e9 = 4294967296 = 2^32, but the encoded
seconds field is its uint32 truncation 0, so the field does not equal
T div 1e9. -/
theorem timestamp_decomposition_counterexample :
    (0 : Int) ≤ 4294967296000000000
    ∧ readUint32LE ((packetHeaderBytes ⟨4294967296000000000, 0, 0⟩).take 4)
        ≠ ((4294967296000000000 : Int) / 1000000000).toNat := by decide

/-- C5 (amended): for every record whose timestamp T is non-negative, the
encoded seconds field equals (T div 1e9) mod 2^32 (the low 32 bits of the
quotient; the mod 2^32 is forced by the 4-byte field), the encoded
nanoseconds field equals T mod 1e9 exactly, and the nanoseconds field lies
in [0, 1e9). -/
theorem timestamp_decomposition (ci : CaptureInfo) (h : 0 ≤ ci.timestamp) :
    (readUint32LE ((packetHeaderBytes ci).take 4) : Int)
      = (ci.timestamp / 1000000000) % 4294967296
    ∧ (readUint32LE (((packetHeaderBytes ci).drop 4).take 4) : Int)
      = ci.timestamp % 1000000000
    ∧ readUint32LE (((packetHeaderBytes ci).drop 4).take 4) < 1000000000 := by
  obtain ⟨f1, f2, -, -⟩ := packetHeader_fields ci
  have e1 : Int.tdiv ci.timestamp nanosPerSecond = ci.timestamp / 1000000000 := by
    show Int.tdiv ci.timestamp 1000000000 = _
    exact Int.tdiv_eq_ediv h (by norm_num)
  have e2 : Int.tmod ci.timestamp nanosPerSecond = ci.timestamp % 1000000000 := by
    show Int.tmod ci.timestamp 1000000000 = _
    exact Int.tmod_eq_emod h (by norm_num)
  simp only [f1, f2, uint32ofInt, e1, e2]
  omega

/-- C5 witness: the decomposition at timestamp 1000000000500 ns, which
encodes seconds 1000 and nanoseconds 500. -/
theorem timestamp_decomposition_witness :
    (readUint32LE ((packetHeaderBytes ⟨1000000000500, 4, 4⟩).take 4) : Int)
      = ((1000000000500 : Int) / 1000000000) % 4294967296
    ∧ (readUint32LE (((packetHeaderBytes ⟨1000000000500, 4, 4⟩).drop 4).take 4) : Int)
      = (1000000000500 : Int) % 1000000000
    ∧ readUint32LE (((packetHeaderBytes ⟨1000000000500, 4, 4⟩).drop 4).take 4)
      < 1000000000 :=
  timestamp_decomposition ⟨1000000000500, 4, 4⟩ (by decide)

/-- C8: for every 32-bit (snaplen, linktype) pair, decoding the 24 bytes
produced by the writer with the correct little-endian reader yields the
identical snaplen and linktype, with magic 0xA1B23C4D, version major 2,
version minor 4, and timezone and sigfigs both 0. -/
theorem fileHeader_roundtrip (sl lt : Nat)
    (hsl : sl < 4294967296) (hlt : lt < 4294967296) :
    readFileHeader (fileHeaderBytes sl lt)
      = some ⟨magicNanoseconds, versionMajor, versionMinor, 0, 0, sl, lt⟩ := by
  have hb : fileHeaderBytes sl lt
      = [77, 60, 178, 161, 2, 0, 4, 0, 0, 0, 0, 0, 0, 0, 0, 0,
         sl % 256, sl / 256 % 256, sl / 65536 % 256, sl / 16777216 % 256,
         lt % 256, lt / 256 % 256, lt / 65536 % 256, lt / 16777216 % 256] := by
    simp [fileHeaderBytes, putUint32LE, putUint16LE, magicNanoseconds,
      versionMajor, versionMinor]
  rw [hb, readFileHeader]
  rw [if_pos (by simp)]
  simp only [List.take_succ_cons, List.take_zero, List.drop_succ_cons, List.drop_zero,
    readUint32LE, readUint16LE, List.getD_cons_zero, List.getD_cons_succ]
  simp only [DecodedFileHeader.mk.injEq, Option.some.injEq]
  norm_num [magicNanoseconds, versionMajor, versionMinor]
  omega

/-- C8 witness: the round trip at snaplen 65536 and linktype 1. -/
theorem fileHeader_roundtrip_witness :
    readFileHeader (fileHeaderBytes 65536 1)
      = some ⟨2712812621, 2, 4, 0, 0, 65536, 1⟩ := by
  have h := fileHeader_roundtrip 65536 1 (by decide) (by decide)
  simpa [magicNanoseconds, versionMajor, versionMinor] using h

/-- C10: for every packet write that passes validation, the write succeeds
with no range check, and the encoded captured-length and original-length
fields hold the declared values reduced modulo 2^32; at capture and
original length 2^32 the encoded captured-length field is 0, not the
declared value. -/
theorem length_fields_mod32 (s : List Nat) (ci : CaptureInfo) (data : List Nat)
    (h1 : ci.captureLength = (data.length : Int))
    (h2 : ci.captureLength ≤ ci.length) :
    (WritePacket listSink s ci data).2 = none
    ∧ readUint32LE (((packetHeaderBytes ci).drop 8).take 4)
        = (ci.captureLength % 4294967296).toNat
    ∧ readUint32LE (((packetHeaderBytes ci).drop 12).take 4)
        = (ci.length % 4294967296).toNat
    ∧ readUint32LE (((packetHeaderBytes ⟨0, 4294967296, 4294967296⟩).drop 8).take 4)
        = 0
    ∧ (0 : Int) ≠ 4294967296 := by
  obtain ⟨-, -, f3, f4⟩ := packetHeader_fields ci
  exact ⟨by rw [writePacket_ok s ci data h1 h2], f3, f4, by decide, by decide⟩

/-- C10 witness: a validated write with capture length 2 and original
length 3 succeeds and encodes both length fields (here below 2^32, so the
reductions are identities). -/
theorem length_fields_mod32_witness :
    (WritePacket listSink [] ⟨0, 2, 3⟩ [7, 9]).2 = none
    ∧ readUint32LE (((packetHeaderBytes ⟨0, 2, 3⟩).drop 8).take 4)
        = ((2 : Int) % 4294967296).toNat
    ∧ readUint32LE (((packetHeaderBytes ⟨0, 2, 3⟩).drop 12).take 4)
        = ((3 : Int) % 4294967296).toNat
    ∧ readUint32LE (((packetHeaderBytes ⟨0, 4294967296, 4294967296⟩).drop 8).take 4)
        = 0
    ∧ (0 : Int) ≠ 4294967296 :=
  length_fields_mod32 [] ⟨0, 2, 3⟩ [7, 9] (by decide) (by decide)

/-- C6: every successful WritePacket call appends exactly 16 + payload
length bytes to the sink (and on success the capture length equals the
payload length, so this is 16 + captured-length); and after one
WriteFileHeader followed by any list of valid packet records, the sink
holds exactly the 24 header bytes plus 16 + capturedLength per record, the
records appearing in call order. -/
theorem write_sequence_length (s s2 : List Nat) (sl lt : Nat)
    (ci : CaptureInfo) (data : List Nat)
    (pkts : List (CaptureInfo × List Nat))
    (hok : (WritePacket listSink s2 ci data).2 = none)
    (h : ∀ p ∈ pkts, p.1.captureLength = (p.2.length : Int)
      ∧ p.1.captureLength ≤ p.1.length) :
    ci.captureLength = (data.length : Int)
    ∧ ((WritePacket listSink s2 ci data).1).length = s2.length + (16 + data.length)
    ∧ writePackets listSink ((WriteFileHeader listSink s sl lt).1) pkts
        = ((WriteFileHeader listSink s sl lt).1
            ++ (pkts.map fun p => packetHeaderBytes p.1 ++ p.2).flatten, none)
    ∧ ((writePackets listSink ((WriteFileHeader listSink s sl lt).1) pkts).1).length
        = s.length + 24 + (pkts.map fun p => 16 + p.2.length).sum := by
  obtain ⟨e1, -, e3⟩ := writePacket_success_shape s2 ci data hok
  have hbase : (WriteFileHeader listSink s sl lt).1 = s ++ fileHeaderBytes sl lt := rfl
  have hseq := writePackets_ok pkts ((WriteFileHeader listSink s sl lt).1) h
  refine ⟨e1, ?_, hseq, ?_⟩
  · rw [e3]
    simp [packetHeaderBytes_length]
  · rw [hseq]
    simp only [hbase, List.length_append, fileHeaderBytes_length,
      records_flatten_length]

/-- C6 witness: a successful single write of a 1-byte packet advances an
empty sink to 17 bytes, and a header write followed by two valid records of
payload sizes 1 and 2 leaves 24 + 17 + 18 bytes in call order. -/
theorem write_sequence_length_witness :
    CaptureInfo.captureLength ⟨0, 1, 2⟩ = ((([9] : List Nat)).length : Int)
    ∧ ((WritePacket listSink [] ⟨0, 1, 2⟩ [9]).1).length = ([] : List Nat).length + (16 + 1)
    ∧ writePackets listSink ((WriteFileHeader listSink [] 65536 1).1)
        [(⟨0, 1, 1⟩, [5]), (⟨0, 2, 2⟩, [6, 7])]
        = ((WriteFileHeader listSink [] 65536 1).1
            ++ (([(⟨0, 1, 1⟩, [5]), (⟨0, 2, 2⟩, [6, 7])] :
                  List (CaptureInfo × List Nat)).map
                fun p => packetHeaderBytes p.1 ++ p.2).flatten, none)
    ∧ ((writePackets listSink ((WriteFileHeader listSink [] 65536 1).1)
          [(⟨0, 1, 1⟩, [5]), (⟨0, 2, 2⟩, [6, 7])]).1).length
        = ([] : List Nat).length + 24
          + (([(⟨0, 1, 1⟩, [5]), (⟨0, 2, 2⟩, [6, 7])] :
                List (CaptureInfo × List Nat)).map fun p => 16 + p.2.length).sum :=
  write_sequence_length [] [] 65536 1 ⟨0, 1, 2⟩ [9]
    [(⟨0, 1, 1⟩, [5]), (⟨0, 2, 2⟩, [6, 7])] (by decide) (by decide)
